import Mathlib

/-
Shallow embedding of the citrus platform driver
(drivers/platform/citrus/citrus-core.c and citrus-i2c.c, which also holds
the spi-citrus engine). The two protocol engines and the fault injector
are modelled as trace-producing functions: each embedded function returns
the list of externally observable events (lock operations, line writes,
line reads, direction switches, delays, interrupt bookkeeping) that the C
code performs, together with its integer return value where it has one.
The two-wire scl line is the physical sck gpio and the two-wire sda line
is the physical mosi gpio, per the citrus_core line mapping.
-/

namespace Citrus

/-- Physical lines of the shared line set owned by citrus_core: the clock
line (sck, which the two-wire engine calls scl) and the data line (mosi,
which the two-wire engine calls sda). -/
inductive Line where
  | sck
  | mosi
deriving DecidableEq

/-- Lock identities appearing in the source: the citrus_core bus_mutex
(the arbiter lock taken by citrus_core_lock_spi and citrus_core_lock_i2c),
the I2C adapter bus lock taken via i2c_lock_bus with I2C_LOCK_ROOT_ADAPTER,
and the spi_bitbang busy-flag mutex. -/
inductive LockId where
  | busMutex
  | i2cAdapter
  | bitbang
deriving DecidableEq

/-- Observable events of the embedding. -/
inductive Ev where
  | lock (l : LockId)
  | unlock (l : LockId)
  | setLine (ln : Line) (v : Bool)
  | getLine (ln : Line)
  | dirInput (ln : Line)
  | dirOutput (ln : Line) (v : Bool)
  | delay (us : Nat)
  | reqIrq
  | freeIrq
  | fatalStop
deriving DecidableEq

/-- Conversion of a C integer line value to a Boolean level: gpiod set
calls treat any nonzero value as driving the line high. -/
def levelOf (v : Nat) : Bool := v != 0

/-- Embedding of the C logical-not operator on integers, as used in the
expressions with one or two exclamation marks in spi_citrus_set_direction. -/
def cNot (v : Nat) : Nat := if v = 0 then 1 else 0

/-- The EINVAL errno; the fault injector precondition checks return its
negation. -/
def EINVAL : Int := 22

/-! ### citrus-core.c: the arbiter lock and the line primitives -/

/-- Embedding of citrus_core_lock_spi: mutex_lock on the shared bus_mutex. -/
def citrus_core_lock_spi : List Ev := [Ev.lock LockId.busMutex]

/-- Embedding of citrus_core_unlock_spi. -/
def citrus_core_unlock_spi : List Ev := [Ev.unlock LockId.busMutex]

/-- Embedding of citrus_core_lock_i2c: mutex_lock on the same bus_mutex. -/
def citrus_core_lock_i2c : List Ev := [Ev.lock LockId.busMutex]

/-- Embedding of citrus_core_unlock_i2c. -/
def citrus_core_unlock_i2c : List Ev := [Ev.unlock LockId.busMutex]

/-! ### citrus-i2c.c: two-wire engine glue -/

/-- Embedding of i2c_gpio_pre_xfer: acquires the arbiter lock. -/
def i2c_gpio_pre_xfer : List Ev := citrus_core_lock_i2c

/-- Embedding of i2c_gpio_post_xfer: releases the arbiter lock. -/
def i2c_gpio_post_xfer : List Ev := citrus_core_unlock_i2c

/-- Modelled from the spec: the two-wire framework (i2c-algo-bit, outside
src/) invokes pre_xfer before the first line operation of a transaction
and post_xfer after the last, on success and on error alike; the body is
the line activity of the transaction. -/
def i2c_transaction (body : List Ev) : List Ev :=
  i2c_gpio_pre_xfer ++ body ++ i2c_gpio_post_xfer

/-- Embedding of spi_citrus_prepare_hardware: takes the arbiter lock, then
sets the bitbang busy flag under the bitbang mutex. -/
def spi_citrus_prepare_hardware : List Ev :=
  citrus_core_lock_spi ++ [Ev.lock LockId.bitbang, Ev.unlock LockId.bitbang]

/-- Embedding of spi_citrus_unprepare_hardware: clears the busy flag under
the bitbang mutex, then releases the arbiter lock. -/
def spi_citrus_unprepare_hardware : List Ev :=
  [Ev.lock LockId.bitbang, Ev.unlock LockId.bitbang] ++ citrus_core_unlock_spi

/-- Modelled from the spec: the four-wire framework (spi core and
spi_bitbang, outside src/) invokes prepare_transfer_hardware before the
first line operation of a transaction and unprepare_transfer_hardware
after the last. -/
def spi_transaction (body : List Ev) : List Ev :=
  spi_citrus_prepare_hardware ++ body ++ spi_citrus_unprepare_hardware

/-! ### citrus-i2c.c: fault injector -/

/-- Embedding of fops_scl_set: write the clock line under the I2C adapter
bus lock. -/
def fops_scl_set (val : Nat) : Int × List Ev :=
  (0, [Ev.lock LockId.i2cAdapter, Ev.setLine Line.sck (levelOf val),
       Ev.unlock LockId.i2cAdapter])

/-- Embedding of fops_sda_set: write the data line under the I2C adapter
bus lock. -/
def fops_sda_set (val : Nat) : Int × List Ev :=
  (0, [Ev.lock LockId.i2cAdapter, Ev.setLine Line.mosi (levelOf val),
       Ev.unlock LockId.i2cAdapter])

/-- Embedding of fops_scl_get: read the clock line under the I2C adapter
bus lock. -/
def fops_scl_get : Int × List Ev :=
  (0, [Ev.lock LockId.i2cAdapter, Ev.getLine Line.sck,
       Ev.unlock LockId.i2cAdapter])

/-- Embedding of fops_sda_get. -/
def fops_sda_get : Int × List Ev :=
  (0, [Ev.lock LockId.i2cAdapter, Ev.getLine Line.mosi,
       Ev.unlock LockId.i2cAdapter])

/-- Embedding of the bit loop of i2c_gpio_incomplete_transfer, iterating i
from k - 1 down to 0: drive scl low, half delay, put bit i of the pattern
on sda, half delay, drive scl high, full delay. -/
def i2c_gpio_tx_bits (udelay pattern : Nat) : Nat → List Ev
  | 0 => []
  | Nat.succ i =>
      Ev.setLine Line.sck false :: Ev.delay (udelay / 2) ::
      Ev.setLine Line.mosi (levelOf ((pattern >>> i) &&& 1)) ::
      Ev.delay ((udelay + 1) / 2) ::
      Ev.setLine Line.sck true :: Ev.delay udelay ::
      i2c_gpio_tx_bits udelay pattern i

/-- Embedding of i2c_gpio_incomplete_transfer: under the I2C adapter bus
lock, pull sda low (START), then shift out pattern_size bits and never
issue a STOP. -/
def i2c_gpio_incomplete_transfer (udelay pattern pattern_size : Nat) : List Ev :=
  Ev.lock LockId.i2cAdapter :: Ev.setLine Line.mosi false :: Ev.delay udelay ::
  (i2c_gpio_tx_bits udelay pattern pattern_size ++ [Ev.unlock LockId.i2cAdapter])

/-- Embedding of fops_incomplete_addr_phase_set: reject addresses above
0x7f, otherwise send the 9-bit pattern addr shifted left by 2 or-ed with 3. -/
def fops_incomplete_addr_phase_set (udelay addr : Nat) : Int × List Ev :=
  if addr > 0x7f then (-EINVAL, [])
  else (0, i2c_gpio_incomplete_transfer udelay ((addr <<< 2) ||| 3) 9)

/-- Embedding of fops_incomplete_write_byte_set: reject addresses above
0x7f, otherwise send the 18-bit pattern: address, write bit and ACK slot,
then a zero data byte and its ACK slot. -/
def fops_incomplete_write_byte_set (udelay addr : Nat) : Int × List Ev :=
  if addr > 0x7f then (-EINVAL, [])
  else (0, i2c_gpio_incomplete_transfer udelay ((((addr <<< 2) ||| 1) <<< 9) ||| 1) 18)

/-- Environment of one run of i2c_gpio_fi_act_on_scl_irq: the results the
kernel primitives it calls would return, and whether the interruptible
wait was cancelled by a signal before the interrupt completed it. -/
structure FiEnv where
  irqOfScl : Int
  dirInputRet : Int
  requestIrqRet : Int
  waitInterrupted : Bool
  dirOutputRet : Int
deriving DecidableEq

/-- Embedding of the tail of i2c_gpio_fi_act_on_scl_irq from its output
label: restore the clock line to output driven high (the restore result
replaces the earlier one when nonzero), then release the adapter lock. -/
def fi_restore_unlock (env : FiEnv) (ret : Int) (t : List Ev) : Int × List Ev :=
  ((if env.dirOutputRet = 0 then ret else env.dirOutputRet),
   t ++ (if env.dirOutputRet = 0 then [Ev.dirOutput Line.sck true] else [])
     ++ [Ev.unlock LockId.i2cAdapter])

/-- Embedding of i2c_gpio_fi_act_on_scl_irq for handlers that signal the
completion, as lose_arbitration_irq does. The handler argument is the
trace of the interrupt handler, which runs before the wait returns when
the wait is completed by the interrupt; the return value of
wait_for_completion_interruptible is discarded by the source. The
fatal-stop handler never signals the completion, so the action armed with
it is embedded separately as i2c_gpio_fi_act_inject_panic. -/
def i2c_gpio_fi_act_on_scl_irq (env : FiEnv) (handler : List Ev) : Int × List Ev :=
  if env.irqOfScl < 0 then (env.irqOfScl, [])
  else if env.dirInputRet ≠ 0 then
    (env.dirInputRet, [Ev.lock LockId.i2cAdapter, Ev.unlock LockId.i2cAdapter])
  else if env.requestIrqRet ≠ 0 then
    fi_restore_unlock env env.requestIrqRet
      [Ev.lock LockId.i2cAdapter, Ev.dirInput Line.sck]
  else
    fi_restore_unlock env 0
      ([Ev.lock LockId.i2cAdapter, Ev.dirInput Line.sck, Ev.reqIrq]
        ++ (if env.waitInterrupted then [] else handler) ++ [Ev.freeIrq])

/-- Embedding of lose_arbitration_irq: pull sda low, wait the configured
duration, release sda. -/
def lose_arbitration_irq (dur : Nat) : List Ev :=
  [Ev.setLine Line.mosi (levelOf 0), Ev.delay dur, Ev.setLine Line.mosi (levelOf 1)]

/-- Embedding of inject_panic_irq: wait the configured duration, then
induce a fatal stop (the source calls the kernel panic routine, after
which nothing further executes). -/
def inject_panic_irq (dur : Nat) : List Ev :=
  [Ev.delay dur, Ev.fatalStop]

/-- Embedding of fops_lose_arbitration_set: reject durations above 100000
microseconds before any other effect, else store the duration in
scl_irq_data and run the interrupt-synchronized action. Returns the
result, the new scl_irq_data value, and the trace. -/
def fops_lose_arbitration_set (prevIrqData : Nat) (env : FiEnv) (duration : Nat) :
    Int × Nat × List Ev :=
  if duration > 100 * 1000 then (-EINVAL, prevIrqData, [])
  else
    let r := i2c_gpio_fi_act_on_scl_irq env (lose_arbitration_irq duration)
    (r.1, duration, r.2)

/-- Embedding of i2c_gpio_fi_act_on_scl_irq as run by fops_inject_panic_set.
inject_panic_irq calls the kernel panic routine and never calls complete,
so the interruptible wait can only return through an external signal
arriving before the interrupt fires; when the interrupt fires instead,
execution ends inside the handler at the panic, with the adapter lock
still held, free_irq never called and the clock line never restored. The
none result models that non-returning path. -/
def i2c_gpio_fi_act_inject_panic (env : FiEnv) (dur : Nat) : Option Int × List Ev :=
  if env.irqOfScl < 0 then (some env.irqOfScl, [])
  else if env.dirInputRet ≠ 0 then
    (some env.dirInputRet, [Ev.lock LockId.i2cAdapter, Ev.unlock LockId.i2cAdapter])
  else if env.requestIrqRet ≠ 0 then
    (some (fi_restore_unlock env env.requestIrqRet
       [Ev.lock LockId.i2cAdapter, Ev.dirInput Line.sck]).1,
     (fi_restore_unlock env env.requestIrqRet
       [Ev.lock LockId.i2cAdapter, Ev.dirInput Line.sck]).2)
  else if env.waitInterrupted then
    (some (fi_restore_unlock env 0
       [Ev.lock LockId.i2cAdapter, Ev.dirInput Line.sck, Ev.reqIrq, Ev.freeIrq]).1,
     (fi_restore_unlock env 0
       [Ev.lock LockId.i2cAdapter, Ev.dirInput Line.sck, Ev.reqIrq, Ev.freeIrq]).2)
  else
    (none, [Ev.lock LockId.i2cAdapter, Ev.dirInput Line.sck, Ev.reqIrq]
      ++ inject_panic_irq dur)

/-- Embedding of fops_inject_panic_set: same bound check, then the
interrupt-synchronized action with the fatal-stop handler; a none result
is the path that panics and never returns. -/
def fops_inject_panic_set (prevIrqData : Nat) (env : FiEnv) (duration : Nat) :
    Option Int × Nat × List Ev :=
  if duration > 100 * 1000 then (some (-EINVAL), prevIrqData, [])
  else ((i2c_gpio_fi_act_inject_panic env duration).1, duration,
        (i2c_gpio_fi_act_inject_panic env duration).2)

/-! ### citrus-i2c.c: probe-time configuration and fault-injector controls -/

/-- Configuration fields read from the devicetree node, as held in
i2c_gpio_platform_data; a zero udelay or timeout means the property was
absent. -/
structure PData where
  udelay : Nat
  timeout : Nat
  scl_is_output_only : Bool

/-- Configuration-relevant fields of i2c_algo_bit_data as filled in by the
probe: whether the getscl callback is installed, the half-bit delay in
microseconds, and the clock-stretch timeout in jiffies. -/
structure BitDataCfg where
  getscl : Bool
  udelay : Nat
  timeout : Nat

/-- Embedding of the configuration part of i2c_citrus_probe: getscl is
installed unless scl is output-only; a zero udelay defaults to 50 when
output-only and 5 otherwise; a zero timeout defaults to HZ / 10 jiffies. -/
def i2c_citrus_probe (p : PData) (HZ : Nat) : BitDataCfg :=
  { getscl := !p.scl_is_output_only
    udelay := if p.udelay ≠ 0 then p.udelay
              else if p.scl_is_output_only then 50 else 5
    timeout := if p.timeout ≠ 0 then p.timeout else HZ / 10 }

/-- Named diagnostic controls the fault injector can expose. -/
inductive Control where
  | incomplete_address_phase
  | incomplete_write_byte
  | inject_panic
  | lose_arbitration
  | scl
  | sda
deriving DecidableEq

/-- Embedding of i2c_gpio_fault_injector_init (with the debugfs directory
creation, which the spec treats as out-of-scope glue, assumed to succeed):
the incomplete-transfer controls and the raw line controls are created
unconditionally, the interrupt-synchronized controls only when the getscl
callback is installed. -/
def i2c_gpio_fault_injector_init (getscl : Bool) : List Control :=
  [Control.incomplete_address_phase, Control.incomplete_write_byte]
  ++ (if getscl then [Control.inject_panic, Control.lose_arbitration] else [])
  ++ [Control.scl, Control.sda]

/-! ### citrus-i2c.c: four-wire (spi-citrus) engine -/

/-- SPI mode bit for clock phase, from the uapi spi header. -/
def SPI_CPHA : Nat := 0x01

/-- SPI mode bit for clock polarity (idle level of the clock). -/
def SPI_CPOL : Nat := 0x02

/-- SPI mode bit selecting least-significant-bit-first transfers. -/
def SPI_LSB_FIRST : Nat := 0x08

/-- SPI mode bit for half-duplex (shared data line) operation. -/
def SPI_3WIRE : Nat := 0x10

/-- SPI mode bit requesting a high-impedance turnaround cycle in
half-duplex operation. -/
def SPI_3WIRE_HIZ : Nat := 0x8000

/-- Embedding of getmiso: the four-wire data-in primitive returns 0 for
every device and whatever level a connected device drives. -/
def getmiso (_spi : Nat) (_misoLevel : Bool) : Nat := 0

/-- Modelled from the spec: the per-word receive loop of the four-wire
transfer (the bitbang txrx helpers included from
drivers/spi/spi-bitbang-txrx.h, which is outside src/) shifts one bit
sampled through the data-in primitive into the received word per clock
cycle. -/
def bitbang_rx_word (spi : Nat) (misoLevel : Bool) : Nat → Nat
  | 0 => 0
  | Nat.succ k => (bitbang_rx_word spi misoLevel k <<< 1) ||| getmiso spi misoLevel

/-- Embedding of spi_citrus_chipselect: on assertion, set the clock line
to the CPOL idle level; on deassertion, do nothing. -/
def spi_citrus_chipselect (mode : Nat) (is_active : Bool) : List Ev :=
  if is_active then [Ev.setLine Line.sck (levelOf (mode &&& SPI_CPOL))] else []

/-- Environment of one run of spi_citrus_set_direction: the results of the
two gpiod direction primitives it may call. -/
structure SpiEnv where
  mosiInRet : Int
  mosiOutRet : Int
deriving DecidableEq

/-- Embedding of the turnaround branch of spi_citrus_set_direction: when
the high-impedance flag is set, drive the clock to the non-idle level and
back to the CPOL idle level. -/
def spi_hiz_toggle (mode : Nat) : List Ev :=
  if mode &&& SPI_3WIRE_HIZ ≠ 0 then
    [Ev.setLine Line.sck (levelOf (cNot (mode &&& SPI_CPOL))),
     Ev.setLine Line.sck (levelOf (cNot (cNot (mode &&& SPI_CPOL))))]
  else []

/-- Embedding of spi_citrus_set_direction: switching to output drives mosi
as an output; switching to input changes the mosi direction only in
half-duplex mode (propagating a failure), then performs the optional
turnaround toggle and returns 0. Direction events are recorded on
success of the corresponding gpiod call. -/
def spi_citrus_set_direction (env : SpiEnv) (mode : Nat) (output : Bool) :
    Int × List Ev :=
  if output then
    (env.mosiOutRet,
     if env.mosiOutRet = 0 then [Ev.dirOutput Line.mosi true] else [])
  else if mode &&& SPI_3WIRE ≠ 0 then
    if env.mosiInRet ≠ 0 then (env.mosiInRet, [])
    else (0, Ev.dirInput Line.mosi :: spi_hiz_toggle mode)
  else (0, spi_hiz_toggle mode)

/-! ### Trace analysis helpers -/

/-- Sequence of levels written to one line by a trace, in order. -/
def writesTo (ln : Line) : List Ev → List Bool
  | [] => []
  | Ev.setLine l v :: r => if l = ln then v :: writesTo ln r else writesTo ln r
  | _ :: r => writesTo ln r

/-- Whether an event operates on a physical line (write, read or
direction change). -/
def isLineEv : Ev → Bool
  | Ev.setLine _ _ => true
  | Ev.getLine _ => true
  | Ev.dirInput _ => true
  | Ev.dirOutput _ _ => true
  | _ => false

/-- Whether an event changes the direction of a line. -/
def isDirEv : Ev → Bool
  | Ev.dirInput _ => true
  | Ev.dirOutput _ _ => true
  | _ => false

/-- Bits k - 1 down to 0 of a number, most significant first. -/
def bitsOfMSB (n : Nat) : Nat → List Bool
  | 0 => []
  | Nat.succ k => n.testBit k :: bitsOfMSB n k

/-- Value of a bit string read most-significant-bit first. -/
def ofBitsMSB (bs : List Bool) : Nat :=
  bs.foldl (fun a b => 2 * a + b.toNat) 0

/-- Scan of a trace that tracks the driven level of the clock line
(starting from the given level) and reports false if the data line is
ever released high while the clock is high after the START, which is the
line condition of an I2C STOP. -/
def stopFree : Bool → List Ev → Bool
  | _, [] => true
  | _, Ev.setLine Line.sck v :: r => stopFree v r
  | scl, Ev.setLine Line.mosi v :: r => !(scl && v) && stopFree scl r
  | scl, _ :: r => stopFree scl r

/-- Tail phase of the bracketing check: after the single release, no
further line operation and no further operation on the same lock. -/
def brkAfter (l : LockId) : List Ev → Bool
  | [] => true
  | e :: r =>
      if isLineEv e then false
      else if e = Ev.lock l then false
      else if e = Ev.unlock l then false
      else brkAfter l r

/-- Held phase of the bracketing check: between the acquire and the
single release there is no re-acquisition of the same lock, and the
release is reached. -/
def brkHeld (l : LockId) : List Ev → Bool
  | [] => false
  | e :: r =>
      if e = Ev.unlock l then brkAfter l r
      else if e = Ev.lock l then false
      else brkHeld l r

/-- Bracketing check: the trace acquires the lock exactly once before any
line operation, releases it exactly once, and performs every line
operation between the two. -/
def bracketedBy (l : LockId) : List Ev → Bool
  | [] => false
  | e :: r =>
      if e = Ev.lock l then brkHeld l r
      else if isLineEv e then false
      else if e = Ev.unlock l then false
      else bracketedBy l r

/-- Lock discipline: a trace that touches the lines at all is bracketed
by the given lock. -/
def lockDiscipline (l : LockId) (t : List Ev) : Bool :=
  !(t.any isLineEv) || bracketedBy l t

/-- Absence of any acquire or release of the given lock in a trace. -/
def lockFreeFor (l : LockId) : List Ev → Bool
  | [] => true
  | Ev.lock x :: r => if x = l then false else lockFreeFor l r
  | Ev.unlock x :: r => if x = l then false else lockFreeFor l r
  | _ :: r => lockFreeFor l r

/-! ### Helper lemmas -/

theorem levelOf_bit (p i : Nat) : levelOf ((p >>> i) &&& 1) = p.testBit i := by
  simp [levelOf, Nat.testBit, Nat.and_comm]

theorem foldl_bitsOfMSB (n k : Nat) :
    ∀ a, (bitsOfMSB n k).foldl (fun a b => 2 * a + b.toNat) a = a * 2 ^ k + n % 2 ^ k := by
  induction k with
  | zero => intro a; simp [bitsOfMSB, ofBitsMSB, Nat.mod_one]
  | succ k ih =>
      intro a
      have hmod : n % 2 ^ (k + 1) = (n.testBit k).toNat * 2 ^ k + n % 2 ^ k := by
        rw [Nat.toNat_testBit, pow_succ, Nat.mod_mul]
        ring
      simp only [bitsOfMSB, List.foldl_cons, ih]
      rw [hmod, pow_succ]
      ring

theorem ofBitsMSB_bitsOfMSB {n k : Nat} (h : n < 2 ^ k) :
    ofBitsMSB (bitsOfMSB n k) = n := by
  unfold ofBitsMSB
  rw [foldl_bitsOfMSB n k 0, Nat.mod_eq_of_lt h]
  ring

theorem getLast?_bitsOfMSB (n k : Nat) :
    (bitsOfMSB n (k + 1)).getLast? = some (n.testBit 0) := by
  induction k with
  | zero => rfl
  | succ k ih => rw [bitsOfMSB, show bitsOfMSB n (k + 1) = n.testBit k :: bitsOfMSB n k from rfl,
      List.getLast?_cons_cons, ← show bitsOfMSB n (k + 1) = n.testBit k :: bitsOfMSB n k from rfl, ih]

theorem writesTo_append (ln : Line) (a b : List Ev) :
    writesTo ln (a ++ b) = writesTo ln a ++ writesTo ln b := by
  induction a with
  | nil => rfl
  | cons e r ih =>
      cases e <;> simp [writesTo, ih]
      split <;> simp [ih]

theorem levelOf_bit_mod (p i : Nat) : levelOf (p >>> i % 2) = p.testBit i := by
  rw [← Nat.and_one_is_mod]
  exact levelOf_bit p i

theorem writesTo_mosi_tx (u p k : Nat) :
    writesTo Line.mosi (i2c_gpio_tx_bits u p k) = bitsOfMSB p k := by
  induction k with
  | zero => rfl
  | succ k ih => simp [i2c_gpio_tx_bits, writesTo, bitsOfMSB, ih, levelOf_bit, levelOf_bit_mod]

theorem writesTo_sck_tx (u p k : Nat) :
    writesTo Line.sck (i2c_gpio_tx_bits u p k)
      = List.flatten (List.replicate k [false, true]) := by
  induction k with
  | zero => rfl
  | succ k ih => simp [i2c_gpio_tx_bits, writesTo, List.replicate_succ, ih]

theorem stopFree_lock (s : Bool) (l : LockId) (r : List Ev) :
    stopFree s (Ev.lock l :: r) = stopFree s r := rfl

theorem stopFree_unlock (s : Bool) (l : LockId) (r : List Ev) :
    stopFree s (Ev.unlock l :: r) = stopFree s r := rfl

theorem stopFree_delay (s : Bool) (d : Nat) (r : List Ev) :
    stopFree s (Ev.delay d :: r) = stopFree s r := rfl

theorem stopFree_sck (s v : Bool) (r : List Ev) :
    stopFree s (Ev.setLine Line.sck v :: r) = stopFree v r := rfl

theorem stopFree_mosi (s v : Bool) (r : List Ev) :
    stopFree s (Ev.setLine Line.mosi v :: r) = ((!(s && v)) && stopFree s r) := rfl

theorem stopFree_tx (u p : Nat) :
    ∀ (k : Nat) (s : Bool) (r : List Ev),
      stopFree s (i2c_gpio_tx_bits u p k ++ r) = stopFree (if k = 0 then s else true) r := by
  intro k
  induction k with
  | zero => intro s r; rfl
  | succ k ih =>
      intro s r
      simp only [i2c_gpio_tx_bits, List.cons_append, stopFree_sck, stopFree_delay,
        stopFree_mosi, Bool.false_and, Bool.not_false, Bool.true_and, ih]
      cases k <;> simp

theorem lockFreeFor_tx (l : LockId) (u p k : Nat) :
    lockFreeFor l (i2c_gpio_tx_bits u p k) = true := by
  induction k with
  | zero => rfl
  | succ k ih => simpa [i2c_gpio_tx_bits, lockFreeFor] using ih

theorem brkHeld_append_of_lockFree (l : LockId) (t r : List Ev)
    (h : lockFreeFor l t = true) : brkHeld l (t ++ r) = brkHeld l r := by
  induction t with
  | nil => rfl
  | cons e t ih =>
      cases e with
      | lock x =>
          rw [lockFreeFor] at h
          split at h
          · exact absurd h (by simp)
          · rename_i hx
            have h1 : (Ev.lock x : Ev) ≠ Ev.unlock l := by simp
            have h2 : (Ev.lock x : Ev) ≠ Ev.lock l := by simpa using hx
            simp only [List.cons_append, brkHeld, if_neg h1, if_neg h2]
            exact ih h
      | unlock x =>
          rw [lockFreeFor] at h
          split at h
          · exact absurd h (by simp)
          · rename_i hx
            have h1 : (Ev.unlock x : Ev) ≠ Ev.unlock l := by simpa using hx
            have h2 : (Ev.unlock x : Ev) ≠ Ev.lock l := by simp
            simp only [List.cons_append, brkHeld, if_neg h1, if_neg h2]
            exact ih h
      | setLine ln v => simp only [List.cons_append, brkHeld, if_neg (by simp : (Ev.setLine ln v : Ev) ≠ Ev.unlock l), if_neg (by simp : (Ev.setLine ln v : Ev) ≠ Ev.lock l)]; exact ih h
      | getLine ln => simp only [List.cons_append, brkHeld, if_neg (by simp : (Ev.getLine ln : Ev) ≠ Ev.unlock l), if_neg (by simp : (Ev.getLine ln : Ev) ≠ Ev.lock l)]; exact ih h
      | dirInput ln => simp only [List.cons_append, brkHeld, if_neg (by simp : (Ev.dirInput ln : Ev) ≠ Ev.unlock l), if_neg (by simp : (Ev.dirInput ln : Ev) ≠ Ev.lock l)]; exact ih h
      | dirOutput ln v => simp only [List.cons_append, brkHeld, if_neg (by simp : (Ev.dirOutput ln v : Ev) ≠ Ev.unlock l), if_neg (by simp : (Ev.dirOutput ln v : Ev) ≠ Ev.lock l)]; exact ih h
      | delay us => simp only [List.cons_append, brkHeld, if_neg (by simp : (Ev.delay us : Ev) ≠ Ev.unlock l), if_neg (by simp : (Ev.delay us : Ev) ≠ Ev.lock l)]; exact ih h
      | reqIrq => simp only [List.cons_append, brkHeld, if_neg (by simp : (Ev.reqIrq : Ev) ≠ Ev.unlock l), if_neg (by simp : (Ev.reqIrq : Ev) ≠ Ev.lock l)]; exact ih h
      | freeIrq => simp only [List.cons_append, brkHeld, if_neg (by simp : (Ev.freeIrq : Ev) ≠ Ev.unlock l), if_neg (by simp : (Ev.freeIrq : Ev) ≠ Ev.lock l)]; exact ih h
      | fatalStop => simp only [List.cons_append, brkHeld, if_neg (by simp : (Ev.fatalStop : Ev) ≠ Ev.unlock l), if_neg (by simp : (Ev.fatalStop : Ev) ≠ Ev.lock l)]; exact ih h

theorem bracketedBy_incomplete_transfer (u p k : Nat) :
    bracketedBy LockId.i2cAdapter (i2c_gpio_incomplete_transfer u p k) = true := by
  show brkHeld LockId.i2cAdapter (Ev.setLine Line.mosi false :: Ev.delay u ::
    (i2c_gpio_tx_bits u p k ++ [Ev.unlock LockId.i2cAdapter])) = true
  show brkHeld LockId.i2cAdapter
    (i2c_gpio_tx_bits u p k ++ [Ev.unlock LockId.i2cAdapter]) = true
  rw [brkHeld_append_of_lockFree _ _ _ (lockFreeFor_tx _ u p k)]
  rfl

theorem levelOf_and_SPI_CPOL (mode : Nat) :
    levelOf (mode &&& SPI_CPOL) = mode.testBit 1 := by
  rw [SPI_CPOL, show (2 : Nat) = 2 ^ 1 from rfl, Nat.and_two_pow]
  cases h : mode.testBit 1 <;> simp [levelOf]

theorem levelOf_cNot (x : Nat) : levelOf (cNot x) = !(levelOf x) := by
  by_cases h : x = 0 <;> simp [levelOf, cNot, h]

theorem spi_hiz_toggle_eq (mode : Nat) :
    spi_hiz_toggle mode
      = if mode &&& SPI_3WIRE_HIZ ≠ 0 then
          [Ev.setLine Line.sck (!(mode.testBit 1)), Ev.setLine Line.sck (mode.testBit 1)]
        else [] := by
  rw [spi_hiz_toggle]
  split <;> simp [levelOf_cNot, levelOf_and_SPI_CPOL]

theorem writesTo_mosi_incomplete (u p k : Nat) :
    writesTo Line.mosi (i2c_gpio_incomplete_transfer u p k) = false :: bitsOfMSB p k := by
  show false :: writesTo Line.mosi (i2c_gpio_tx_bits u p k ++ [Ev.unlock LockId.i2cAdapter])
    = false :: bitsOfMSB p k
  rw [writesTo_append, writesTo_mosi_tx]
  simp [writesTo]

theorem writesTo_sck_incomplete (u p k : Nat) :
    writesTo Line.sck (i2c_gpio_incomplete_transfer u p k)
      = List.flatten (List.replicate k [false, true]) := by
  show writesTo Line.sck (i2c_gpio_tx_bits u p k ++ [Ev.unlock LockId.i2cAdapter])
    = List.flatten (List.replicate k [false, true])
  rw [writesTo_append, writesTo_sck_tx]
  simp [writesTo]

theorem stopFree_incomplete (u p k : Nat) :
    stopFree true (i2c_gpio_incomplete_transfer u p k) = true := by
  show stopFree true (Ev.lock LockId.i2cAdapter :: Ev.setLine Line.mosi false ::
    Ev.delay u :: (i2c_gpio_tx_bits u p k ++ [Ev.unlock LockId.i2cAdapter])) = true
  rw [stopFree_lock, stopFree_mosi, stopFree_delay, stopFree_tx]
  cases k <;> rfl

theorem testBit_zero_or_three (x : Nat) : ((x <<< 2) ||| 3).testBit 0 = true := by
  rw [Nat.testBit_or]
  simp

theorem testBit_zero_or_one (x : Nat) : ((x <<< 9) ||| 1).testBit 0 = true := by
  rw [Nat.testBit_or]
  simp

theorem getLast_cons_some {α} (x : α) {l : List α} {y : α} (h : l.getLast? = some y) :
    (x :: l).getLast? = some y := by
  cases l with
  | nil => simp at h
  | cons a l => rw [List.getLast?_cons_cons]; exact h

/-! ### Claims -/

/-- C2: for every address a up to 0x7f and any configured half-bit delay,
the incomplete-address-phase injection succeeds, pulls the data line low
first (the START condition) and then writes exactly the 9 bits of the
pattern a shifted left by 2 or-ed with 3, most significant first, with
exactly one low-high clock pulse per bit, leaves the data line released
high at the final bit, and never produces the STOP line condition (a
data-line release while the clock is high); the incomplete-write-byte
injection does the same with the 18-bit pattern of address, write bit,
ACK slot, zero data byte and ACK slot. -/
theorem C2_incomplete_injection_framing (a u : Nat) (ha : a ≤ 0x7f) :
    (fops_incomplete_addr_phase_set u a).1 = 0 ∧
    writesTo Line.mosi (fops_incomplete_addr_phase_set u a).2
      = false :: bitsOfMSB ((a <<< 2) ||| 3) 9 ∧
    ofBitsMSB (bitsOfMSB ((a <<< 2) ||| 3) 9) = (a <<< 2) ||| 3 ∧
    writesTo Line.sck (fops_incomplete_addr_phase_set u a).2
      = List.flatten (List.replicate 9 [false, true]) ∧
    (writesTo Line.mosi (fops_incomplete_addr_phase_set u a).2).getLast? = some true ∧
    stopFree true (fops_incomplete_addr_phase_set u a).2 = true ∧
    (fops_incomplete_write_byte_set u a).1 = 0 ∧
    writesTo Line.mosi (fops_incomplete_write_byte_set u a).2
      = false :: bitsOfMSB ((((a <<< 2) ||| 1) <<< 9) ||| 1) 18 ∧
    ofBitsMSB (bitsOfMSB ((((a <<< 2) ||| 1) <<< 9) ||| 1) 18)
      = (((a <<< 2) ||| 1) <<< 9) ||| 1 ∧
    writesTo Line.sck (fops_incomplete_write_byte_set u a).2
      = List.flatten (List.replicate 18 [false, true]) ∧
    (writesTo Line.mosi (fops_incomplete_write_byte_set u a).2).getLast? = some true ∧
    stopFree true (fops_incomplete_write_byte_set u a).2 = true := by
  have hna : ¬ a > 0x7f := by omega
  have e1 : fops_incomplete_addr_phase_set u a
      = ((0 : Int), i2c_gpio_incomplete_transfer u ((a <<< 2) ||| 3) 9) := by
    rw [fops_incomplete_addr_phase_set, if_neg hna]
  have e2 : fops_incomplete_write_byte_set u a
      = ((0 : Int), i2c_gpio_incomplete_transfer u ((((a <<< 2) ||| 1) <<< 9) ||| 1) 18) := by
    rw [fops_incomplete_write_byte_set, if_neg hna]
  have h4 : a <<< 2 < 2 ^ 9 := by rw [Nat.shiftLeft_eq]; omega
  have hp1 : (a <<< 2) ||| 3 < 2 ^ 9 := Nat.or_lt_two_pow h4 (by norm_num)
  have h9 : (a <<< 2) ||| 1 < 2 ^ 9 := Nat.or_lt_two_pow h4 (by norm_num)
  have hsh : ((a <<< 2) ||| 1) <<< 9 < 2 ^ 18 := by
    rw [Nat.shiftLeft_eq]
    have h9n : (a <<< 2) ||| 1 < 512 := by simpa using h9
    have : ((a <<< 2) ||| 1) * 2 ^ 9 < 512 * 512 := by
      have := Nat.mul_le_mul_right (2 ^ 9) (Nat.le_of_lt_succ (by omega : (a <<< 2) ||| 1 < 511 + 1))
      omega
    simpa using this
  have hp2 : (((a <<< 2) ||| 1) <<< 9) ||| 1 < 2 ^ 18 := Nat.or_lt_two_pow hsh (by norm_num)
  have last1 : (bitsOfMSB ((a <<< 2) ||| 3) 9).getLast? = some true := by
    rw [getLast?_bitsOfMSB, testBit_zero_or_three]
  have last2 : (bitsOfMSB ((((a <<< 2) ||| 1) <<< 9) ||| 1) 18).getLast? = some true := by
    rw [getLast?_bitsOfMSB, testBit_zero_or_one]
  refine ⟨by rw [e1], ?_, ofBitsMSB_bitsOfMSB hp1, ?_, ?_, ?_,
          by rw [e2], ?_, ofBitsMSB_bitsOfMSB hp2, ?_, ?_, ?_⟩
  · rw [e1]; exact writesTo_mosi_incomplete u _ 9
  · rw [e1]; exact writesTo_sck_incomplete u _ 9
  · rw [e1, writesTo_mosi_incomplete]; exact getLast_cons_some _ last1
  · rw [e1]; exact stopFree_incomplete u _ 9
  · rw [e2]; exact writesTo_mosi_incomplete u _ 18
  · rw [e2]; exact writesTo_sck_incomplete u _ 18
  · rw [e2, writesTo_mosi_incomplete]; exact getLast_cons_some _ last2
  · rw [e2]; exact stopFree_incomplete u _ 18

/-- Witness for C2 at the spec example address 0x3A. -/
theorem C2_witness :
    (0x3A : Nat) ≤ 0x7f ∧ (fops_incomplete_addr_phase_set 5 0x3A).1 = 0 :=
  ⟨by decide, (C2_incomplete_injection_framing 0x3A 5 (by decide)).1⟩

/-- C3: an address above 0x7f makes the incomplete-transfer injections,
and a delay above 100000 microseconds makes the lose-arbitration and
fatal-stop injections, return the EINVAL error with an empty trace (so no
lock of any kind is taken, no interrupt is armed, no line is touched) and
with the stored delay state unchanged. -/
theorem C3_invalid_config_rejected (a u d p : Nat) (env : FiEnv)
    (ha : a > 0x7f) (hd : d > 100000) :
    fops_incomplete_addr_phase_set u a = (-EINVAL, []) ∧
    fops_incomplete_write_byte_set u a = (-EINVAL, []) ∧
    fops_lose_arbitration_set p env d = (-EINVAL, p, []) ∧
    fops_inject_panic_set p env d = (some (-EINVAL), p, []) := by
  refine ⟨?_, ?_, ?_, ?_⟩
  · rw [fops_incomplete_addr_phase_set, if_pos ha]
  · rw [fops_incomplete_write_byte_set, if_pos ha]
  · rw [fops_lose_arbitration_set, if_pos (by omega)]
  · rw [fops_inject_panic_set, if_pos (by omega)]

/-- Witness for C3 at address 0x80 and delay 100001. -/
theorem C3_witness :
    ((0x80 : Nat) > 0x7f ∧ (100001 : Nat) > 100000) ∧
    fops_incomplete_addr_phase_set 5 0x80 = (-EINVAL, []) ∧
    fops_lose_arbitration_set 7 ⟨0, 0, 0, false, 0⟩ 100001 = (-EINVAL, 7, []) :=
  ⟨⟨by decide, by decide⟩,
   (C3_invalid_config_rejected 0x80 5 100001 7 ⟨0, 0, 0, false, 0⟩ (by decide) (by decide)).1,
   (C3_invalid_config_rejected 0x80 5 100001 7 ⟨0, 0, 0, false, 0⟩ (by decide) (by decide)).2.2.1⟩

/-- C5: the getscl callback is installed exactly when the output-only flag
is unset, whatever the other configuration fields are; the lose-arbitration
and fatal-stop controls are created exactly when that callback is
installed; the incomplete-address, incomplete-write-byte and raw line
controls are created for both values of the flag. -/
theorem C5_fault_injector_controls (p : PData) (HZ : Nat) :
    ((i2c_citrus_probe p HZ).getscl = true ↔ p.scl_is_output_only = false) ∧
    (Control.lose_arbitration ∈ i2c_gpio_fault_injector_init (i2c_citrus_probe p HZ).getscl
      ↔ (i2c_citrus_probe p HZ).getscl = true) ∧
    (Control.inject_panic ∈ i2c_gpio_fault_injector_init (i2c_citrus_probe p HZ).getscl
      ↔ (i2c_citrus_probe p HZ).getscl = true) ∧
    Control.incomplete_address_phase
      ∈ i2c_gpio_fault_injector_init (i2c_citrus_probe p HZ).getscl ∧
    Control.incomplete_write_byte
      ∈ i2c_gpio_fault_injector_init (i2c_citrus_probe p HZ).getscl ∧
    Control.scl ∈ i2c_gpio_fault_injector_init (i2c_citrus_probe p HZ).getscl ∧
    Control.sda ∈ i2c_gpio_fault_injector_init (i2c_citrus_probe p HZ).getscl := by
  have hg : (i2c_citrus_probe p HZ).getscl = !p.scl_is_output_only := rfl
  rw [hg]
  cases p.scl_is_output_only <;> simp [i2c_gpio_fault_injector_init]

/-- C6: an absent (zero) half-bit delay defaults to 5 microseconds with a
readable clock line and to 50 microseconds with an output-only clock line;
an absent (zero) clock-stretch timeout defaults to HZ / 10 jiffies (100
milliseconds); nonzero supplied values are taken unchanged. -/
theorem C6_timing_defaults (p : PData) (HZ : Nat) :
    (p.udelay = 0 → p.scl_is_output_only = false → (i2c_citrus_probe p HZ).udelay = 5) ∧
    (p.udelay = 0 → p.scl_is_output_only = true → (i2c_citrus_probe p HZ).udelay = 50) ∧
    (p.udelay ≠ 0 → (i2c_citrus_probe p HZ).udelay = p.udelay) ∧
    (p.timeout = 0 → (i2c_citrus_probe p HZ).timeout = HZ / 10) ∧
    (p.timeout ≠ 0 → (i2c_citrus_probe p HZ).timeout = p.timeout) := by
  refine ⟨fun h1 h2 => ?_, fun h1 h2 => ?_, fun h1 => ?_, fun h1 => ?_, fun h1 => ?_⟩ <;>
    simp [i2c_citrus_probe, *]

/-- Witness for C6 with all fields absent and a readable clock line. -/
theorem C6_witness :
    (i2c_citrus_probe ⟨0, 0, false⟩ 100).udelay = 5 ∧
    (i2c_citrus_probe ⟨0, 0, false⟩ 100).timeout = 10 :=
  ⟨(C6_timing_defaults ⟨0, 0, false⟩ 100).1 rfl rfl,
   (C6_timing_defaults ⟨0, 0, false⟩ 100).2.2.2.1 rfl⟩

/-- C7: chip-select assertion performs exactly one line operation, setting
the clock line to the CPOL idle polarity (bit 1 of the mode word);
chip-select deassertion performs no line operation at all, so the
chipselect callback never re-drives the clock during word shifting. -/
theorem C7_chipselect_cpol (mode : Nat) :
    spi_citrus_chipselect mode true = [Ev.setLine Line.sck (mode.testBit 1)] ∧
    spi_citrus_chipselect mode false = [] := by
  constructor
  · rw [spi_citrus_chipselect, if_pos rfl, levelOf_and_SPI_CPOL]
  · rfl

/-- C9: the four-wire data-in primitive returns 0 for every device and
every level a connected device drives on the line, so a received word
assembled by sampling it bit by bit is 0 for every word width. -/
theorem C9_getmiso_zero (spi : Nat) (misoLevel : Bool) (bits : Nat) :
    getmiso spi misoLevel = 0 ∧ bitbang_rx_word spi misoLevel bits = 0 := by
  refine ⟨rfl, ?_⟩
  induction bits with
  | zero => rfl
  | succ k ih => simp [bitbang_rx_word, ih, getmiso]

/-- C10: for a device whose mode lacks the half-duplex flag, a
set-direction request towards input returns success, performs no
direction change on any line, and its only line activity is the
turnaround clock toggle when the high-impedance flag is set. -/
theorem C10_set_direction_no_3wire (mode : Nat) (env : SpiEnv)
    (h : mode &&& SPI_3WIRE = 0) :
    (spi_citrus_set_direction env mode false).1 = 0 ∧
    (spi_citrus_set_direction env mode false).2.any isDirEv = false ∧
    (spi_citrus_set_direction env mode false).2
      = (if mode &&& SPI_3WIRE_HIZ ≠ 0 then
           [Ev.setLine Line.sck (!(mode.testBit 1)), Ev.setLine Line.sck (mode.testBit 1)]
         else []) := by
  have e : spi_citrus_set_direction env mode false = (0, spi_hiz_toggle mode) := by
    rw [spi_citrus_set_direction]
    simp [h]
  rw [e, spi_hiz_toggle_eq]
  refine ⟨rfl, ?_, rfl⟩
  split <;> simp [isDirEv]

/-- Witness for C10 with only the high-impedance flag set. -/
theorem C10_witness :
    SPI_3WIRE_HIZ &&& SPI_3WIRE = 0 ∧
    (spi_citrus_set_direction ⟨0, 0⟩ SPI_3WIRE_HIZ false).1 = 0 :=
  ⟨by decide, (C10_set_direction_no_3wire SPI_3WIRE_HIZ ⟨0, 0⟩ (by decide)).1⟩

/-- C8 counterexample: with the half-duplex and high-impedance flags set
(CPOL 0) and succeeding gpiod calls, the trace of an output-to-input
switch performs the direction switch first and the turnaround clock
toggle after it, not the toggle before the switch as the claim states. -/
theorem C8_hiz_turnaround_cx :
    (spi_citrus_set_direction ⟨0, 0⟩ (SPI_3WIRE ||| SPI_3WIRE_HIZ) false).2
      = [Ev.dirInput Line.mosi, Ev.setLine Line.sck true, Ev.setLine Line.sck false] ∧
    (spi_citrus_set_direction ⟨0, 0⟩ (SPI_3WIRE ||| SPI_3WIRE_HIZ) false).2
      ≠ [Ev.setLine Line.sck true, Ev.setLine Line.sck false, Ev.dirInput Line.mosi] := by
  decide

/-- C8 amended: in half-duplex mode with a succeeding input switch, the
output-to-input direction switch happens first and, exactly when the
high-impedance option is set, is followed by one clock half-period with
the data line already undriven, the clock driven to the non-idle level
and back to the CPOL idle level; when the option is not set no clock
toggling occurs. -/
theorem C8_hiz_turnaround_amended (mode : Nat) (env : SpiEnv)
    (h3 : mode &&& SPI_3WIRE ≠ 0) (hin : env.mosiInRet = 0) :
    (spi_citrus_set_direction env mode false).1 = 0 ∧
    (spi_citrus_set_direction env mode false).2
      = Ev.dirInput Line.mosi ::
        (if mode &&& SPI_3WIRE_HIZ ≠ 0 then
           [Ev.setLine Line.sck (!(mode.testBit 1)), Ev.setLine Line.sck (mode.testBit 1)]
         else []) := by
  have e : spi_citrus_set_direction env mode false
      = (0, Ev.dirInput Line.mosi :: spi_hiz_toggle mode) := by
    rw [spi_citrus_set_direction]
    simp [h3, hin]
  rw [e, spi_hiz_toggle_eq]
  exact ⟨rfl, rfl⟩

/-- Witness for C8 amended with both half-duplex flags set. -/
theorem C8_witness :
    (SPI_3WIRE ||| SPI_3WIRE_HIZ) &&& SPI_3WIRE ≠ 0 ∧
    (spi_citrus_set_direction ⟨0, 0⟩ (SPI_3WIRE ||| SPI_3WIRE_HIZ) false).1 = 0 :=
  ⟨by decide, (C8_hiz_turnaround_amended (SPI_3WIRE ||| SPI_3WIRE_HIZ) ⟨0, 0⟩
    (by decide) rfl).1⟩

/-- C4 counterexample: with a valid interrupt line and succeeding
primitives, a wait cancelled by an external signal returns 0, exactly the
result of a completed wait, so cancellation is not reported as a distinct
error result; and when the switch of the clock line to input fails, the
action returns without any restoring drive of the clock line. -/
theorem C4_fi_scl_irq_cx :
    (i2c_gpio_fi_act_on_scl_irq ⟨0, 0, 0, true, 0⟩ (lose_arbitration_irq 10)).1 = 0 ∧
    (i2c_gpio_fi_act_on_scl_irq ⟨0, 0, 0, false, 0⟩ (lose_arbitration_irq 10)).1 = 0 ∧
    Ev.dirOutput Line.sck true ∉
      (i2c_gpio_fi_act_on_scl_irq ⟨0, -5, 0, false, 0⟩ (lose_arbitration_irq 10)).2 := by
  decide

/-- C4 amended: interrupt-line lookup failure is reported as its own error
with no line activity at all; a direction-switch failure is reported as
its own error but skips the clock-line restore (the line was never
switched); on the paths where the switch to input succeeded and the
restore succeeds, the clock line is driven back to output high whether
the interrupt registration failed, the wait was cancelled, or the
interrupt completed, and the registration failure is propagated while a
cancelled wait returns 0, indistinguishable from completion. -/
theorem C4_fi_scl_irq_amended (env : FiEnv) (handler : List Ev) :
    (env.irqOfScl < 0 → i2c_gpio_fi_act_on_scl_irq env handler = (env.irqOfScl, [])) ∧
    (¬ env.irqOfScl < 0 → env.dirInputRet ≠ 0 →
      i2c_gpio_fi_act_on_scl_irq env handler
        = (env.dirInputRet, [Ev.lock LockId.i2cAdapter, Ev.unlock LockId.i2cAdapter])) ∧
    (¬ env.irqOfScl < 0 → env.dirInputRet = 0 → env.dirOutputRet = 0 →
      Ev.dirOutput Line.sck true ∈ (i2c_gpio_fi_act_on_scl_irq env handler).2) ∧
    (¬ env.irqOfScl < 0 → env.dirInputRet = 0 → env.requestIrqRet ≠ 0 →
      env.dirOutputRet = 0 →
      (i2c_gpio_fi_act_on_scl_irq env handler).1 = env.requestIrqRet) ∧
    (¬ env.irqOfScl < 0 → env.dirInputRet = 0 → env.requestIrqRet = 0 →
      env.dirOutputRet = 0 →
      (i2c_gpio_fi_act_on_scl_irq env handler).1 = 0) := by
  refine ⟨fun h1 => ?_, fun h1 h2 => ?_, fun h1 h2 h4 => ?_, fun h1 h2 h3 h4 => ?_,
          fun h1 h2 h3 h4 => ?_⟩
  · rw [i2c_gpio_fi_act_on_scl_irq, if_pos h1]
  · rw [i2c_gpio_fi_act_on_scl_irq, if_neg h1, if_pos h2]
  · by_cases h3 : env.requestIrqRet = 0 <;>
      simp [i2c_gpio_fi_act_on_scl_irq, fi_restore_unlock, h1, h2, h3, h4]
  · simp [i2c_gpio_fi_act_on_scl_irq, fi_restore_unlock, h1, h2, h3, h4]
  · simp [i2c_gpio_fi_act_on_scl_irq, fi_restore_unlock, h1, h2, h3, h4]

/-- Witness for C4 amended at a failing interrupt lookup. -/
theorem C4_witness :
    ((-3 : Int) < 0) ∧
    i2c_gpio_fi_act_on_scl_irq ⟨-3, 0, 0, false, 0⟩ (lose_arbitration_irq 10)
      = (-3, []) :=
  ⟨by decide, (C4_fi_scl_irq_amended ⟨-3, 0, 0, false, 0⟩ (lose_arbitration_irq 10)).1
    (by decide)⟩

/-- C1 counterexample: the incomplete-address-phase fault injection at
address 0x3A touches the lines but never acquires the arbiter bus_mutex;
the lock bracketing its line operations is the I2C adapter lock, a
different lock from the one the two protocol engines acquire. -/
theorem C1_arbiter_lock_cx :
    (fops_incomplete_addr_phase_set 5 0x3A).2.any isLineEv = true ∧
    Ev.lock LockId.busMutex ∉ (fops_incomplete_addr_phase_set 5 0x3A).2 ∧
    Ev.lock LockId.i2cAdapter ∈ (fops_incomplete_addr_phase_set 5 0x3A).2 := by
  decide

theorem lockDiscipline_fi_act (env : FiEnv) (d : Nat) :
    lockDiscipline LockId.i2cAdapter
      (i2c_gpio_fi_act_on_scl_irq env (lose_arbitration_irq d)).2 = true := by
  rw [i2c_gpio_fi_act_on_scl_irq]
  by_cases h1 : env.irqOfScl < 0
  · rw [if_pos h1]; rfl
  rw [if_neg h1]
  by_cases h2 : env.dirInputRet ≠ 0
  · rw [if_pos h2]; rfl
  rw [if_neg h2]
  by_cases h3 : env.requestIrqRet ≠ 0
  · rw [if_pos h3]
    unfold fi_restore_unlock
    by_cases h4 : env.dirOutputRet = 0 <;> simp only [h4, if_pos, if_neg, ite_true,
      ite_false, reduceIte] <;> rfl
  rw [if_neg h3]
  unfold fi_restore_unlock
  by_cases h4 : env.dirOutputRet = 0 <;>
    by_cases h5 : env.waitInterrupted = true <;>
      simp only [h4, h5, ite_true, ite_false, reduceIte, Bool.not_eq_true] <;>
        rfl

theorem lockDiscipline_lose_arbitration (p d : Nat) (env : FiEnv) :
    lockDiscipline LockId.i2cAdapter (fops_lose_arbitration_set p env d).2.2 = true := by
  rw [fops_lose_arbitration_set]
  by_cases hd : d > 100 * 1000
  · rw [if_pos hd]; rfl
  · rw [if_neg hd]
    exact lockDiscipline_fi_act env d

theorem lockDiscipline_inject_panic_act (env : FiEnv) (d : Nat)
    (h : (i2c_gpio_fi_act_inject_panic env d).1 ≠ none) :
    lockDiscipline LockId.i2cAdapter (i2c_gpio_fi_act_inject_panic env d).2 = true := by
  unfold i2c_gpio_fi_act_inject_panic at h ⊢
  by_cases h1 : env.irqOfScl < 0
  · rw [if_pos h1]; rfl
  rw [if_neg h1] at h ⊢
  by_cases h2 : env.dirInputRet ≠ 0
  · rw [if_pos h2]; rfl
  rw [if_neg h2] at h ⊢
  by_cases h3 : env.requestIrqRet ≠ 0
  · rw [if_pos h3]
    unfold fi_restore_unlock
    by_cases h4 : env.dirOutputRet = 0 <;>
      simp only [h4, reduceIte, ite_true, ite_false] <;> rfl
  rw [if_neg h3] at h ⊢
  cases hw : env.waitInterrupted with
  | true =>
      simp only [reduceIte]
      unfold fi_restore_unlock
      by_cases h4 : env.dirOutputRet = 0 <;>
        simp only [h4, reduceIte, ite_true, ite_false] <;> rfl
  | false =>
      rw [hw] at h
      simp at h

theorem inject_panic_fired_lock_held (env : FiEnv) (d : Nat)
    (h : (i2c_gpio_fi_act_inject_panic env d).1 = none) :
    Ev.lock LockId.i2cAdapter ∈ (i2c_gpio_fi_act_inject_panic env d).2 ∧
    Ev.unlock LockId.i2cAdapter ∉ (i2c_gpio_fi_act_inject_panic env d).2 ∧
    (i2c_gpio_fi_act_inject_panic env d).2.getLast? = some Ev.fatalStop := by
  unfold i2c_gpio_fi_act_inject_panic at h ⊢
  by_cases h1 : env.irqOfScl < 0
  · rw [if_pos h1] at h; simp at h
  rw [if_neg h1] at h ⊢
  by_cases h2 : env.dirInputRet ≠ 0
  · rw [if_pos h2] at h; simp at h
  rw [if_neg h2] at h ⊢
  by_cases h3 : env.requestIrqRet ≠ 0
  · rw [if_pos h3] at h; simp at h
  rw [if_neg h3] at h ⊢
  cases hw : env.waitInterrupted with
  | true => rw [hw] at h; simp at h
  | false =>
      refine ⟨by simp, by simp [inject_panic_irq], rfl⟩

theorem lockDiscipline_inject_panic (p d : Nat) (env : FiEnv)
    (h : (fops_inject_panic_set p env d).1 ≠ none) :
    lockDiscipline LockId.i2cAdapter (fops_inject_panic_set p env d).2.2 = true := by
  rw [fops_inject_panic_set] at h ⊢
  by_cases hd : d > 100 * 1000
  · rw [if_pos hd]; rfl
  · rw [if_neg hd] at h ⊢
    exact lockDiscipline_inject_panic_act env d h

theorem inject_panic_never_returns (p d : Nat) (env : FiEnv)
    (h : (fops_inject_panic_set p env d).1 = none) :
    Ev.lock LockId.i2cAdapter ∈ (fops_inject_panic_set p env d).2.2 ∧
    Ev.unlock LockId.i2cAdapter ∉ (fops_inject_panic_set p env d).2.2 ∧
    (fops_inject_panic_set p env d).2.2.getLast? = some Ev.fatalStop := by
  rw [fops_inject_panic_set] at h ⊢
  by_cases hd : d > 100 * 1000
  · rw [if_pos hd] at h; simp at h
  · rw [if_neg hd] at h ⊢
    exact inject_panic_fired_lock_held env d h

/-- C1 amended: the two protocol engines bracket every transaction in the
same single arbiter lock (the citrus_core bus_mutex), acquired before the
first line operation and released exactly once after the last on every
path, so the lock is free after any transaction; the fault-injector
actions are bracketed not by the arbiter lock but by the I2C adapter bus
lock, with exactly one acquire and one release around all their line
operations on every path on which the action returns; the fatal-stop
injection's interrupt-fired path never returns (its handler panics the
kernel without completing the wait) and ends with the adapter lock still
held and the trace terminating at the fatal stop. -/
theorem C1_lock_bracketing_amended (body : List Ev)
    (hb : lockFreeFor LockId.busMutex body = true)
    (a u v d p : Nat) (ha : a ≤ 0x7f) (env : FiEnv) :
    citrus_core_lock_i2c = citrus_core_lock_spi ∧
    citrus_core_unlock_i2c = citrus_core_unlock_spi ∧
    bracketedBy LockId.busMutex (i2c_transaction body) = true ∧
    bracketedBy LockId.busMutex (spi_transaction body) = true ∧
    bracketedBy LockId.i2cAdapter (fops_scl_set v).2 = true ∧
    bracketedBy LockId.i2cAdapter (fops_sda_set v).2 = true ∧
    bracketedBy LockId.i2cAdapter fops_scl_get.2 = true ∧
    bracketedBy LockId.i2cAdapter fops_sda_get.2 = true ∧
    bracketedBy LockId.i2cAdapter (fops_incomplete_addr_phase_set u a).2 = true ∧
    bracketedBy LockId.i2cAdapter (fops_incomplete_write_byte_set u a).2 = true ∧
    lockDiscipline LockId.i2cAdapter (fops_lose_arbitration_set p env d).2.2 = true ∧
    ((fops_inject_panic_set p env d).1 ≠ none →
      lockDiscipline LockId.i2cAdapter (fops_inject_panic_set p env d).2.2 = true) ∧
    ((fops_inject_panic_set p env d).1 = none →
      Ev.lock LockId.i2cAdapter ∈ (fops_inject_panic_set p env d).2.2 ∧
      Ev.unlock LockId.i2cAdapter ∉ (fops_inject_panic_set p env d).2.2 ∧
      (fops_inject_panic_set p env d).2.2.getLast? = some Ev.fatalStop) := by
  have hna : ¬ a > 0x7f := by omega
  refine ⟨rfl, rfl, ?_, ?_, rfl, rfl, rfl, rfl, ?_, ?_,
    lockDiscipline_lose_arbitration p d env,
    lockDiscipline_inject_panic p d env,
    inject_panic_never_returns p d env⟩
  · show brkHeld LockId.busMutex (body ++ [Ev.unlock LockId.busMutex]) = true
    rw [brkHeld_append_of_lockFree _ _ _ hb]
    rfl
  · show brkHeld LockId.busMutex
      (body ++ [Ev.lock LockId.bitbang, Ev.unlock LockId.bitbang,
                Ev.unlock LockId.busMutex]) = true
    rw [brkHeld_append_of_lockFree _ _ _ hb]
    rfl
  · rw [fops_incomplete_addr_phase_set, if_neg hna]
    exact bracketedBy_incomplete_transfer u _ 9
  · rw [fops_incomplete_write_byte_set, if_neg hna]
    exact bracketedBy_incomplete_transfer u _ 18

/-- Witness for C1 amended with a one-write transaction body. -/
theorem C1_witness :
    lockFreeFor LockId.busMutex [Ev.setLine Line.mosi false] = true ∧
    (0x3A : Nat) ≤ 0x7f ∧
    bracketedBy LockId.busMutex (i2c_transaction [Ev.setLine Line.mosi false]) = true :=
  ⟨by decide, by decide,
   (C1_lock_bracketing_amended [Ev.setLine Line.mosi false] (by decide)
     0x3A 5 1 10 7 (by decide) ⟨0, 0, 0, false, 0⟩).2.2.1⟩

end Citrus
